import Mathlib

/-!
Shallow embedding of `finish-icloud-photos.py` (iCloud photos export finisher).

Strings are modelled as Lean `String` / `List Char`.  The filesystem, the CSV
files and the external ExifTool process are modelled as explicit inputs; an
exception raised in Python is modelled as `Option.none` or an oracle bit.
-/

/-- Python `str.strip()` on a character list (whitespace trimmed on both ends). -/
def pyStripChars (cs : List Char) : List Char :=
  ((cs.dropWhile Char.isWhitespace).reverse.dropWhile Char.isWhitespace).reverse

/-- Helper for Python `str.split()`: accumulate the current token (reversed). -/
def splitWsAux : List Char → List Char → List (List Char)
  | [], cur => if cur.isEmpty then [] else [cur.reverse]
  | c :: rest, cur =>
    if c.isWhitespace then
      if cur.isEmpty then splitWsAux rest [] else cur.reverse :: splitWsAux rest []
    else splitWsAux rest (c :: cur)

/-- Python `str.split()` with no argument: split on whitespace runs, no empty tokens. -/
def splitWs (cs : List Char) : List (List Char) := splitWsAux cs []

/-- Python `" ".join(parts)`. -/
def joinSpace : List (List Char) → List Char
  | [] => []
  | [x] => x
  | x :: y :: rest => x ++ ' ' :: joinSpace (y :: rest)

/-- Expect `nm` as a literal prefix of `l`; return the remainder. -/
def dropTok : List Char → List Char → Option (List Char)
  | [], l => some l
  | _ :: _, [] => none
  | a :: nm, b :: l => if a = b then dropTok nm l else none

/-- The full weekday names matched by `%A` (lowercase; matching is case-insensitive). -/
def weekdayNames : List (List Char) :=
  ["monday", "tuesday", "wednesday", "thursday", "friday", "saturday", "sunday"].map
    String.data

/-- The full month names matched by `%B`, with their month numbers. -/
def monthNames : List (List Char × Nat) :=
  [("january", 1), ("february", 2), ("march", 3), ("april", 4), ("may", 5), ("june", 6),
   ("july", 7), ("august", 8), ("september", 9), ("october", 10), ("november", 11),
   ("december", 12)].map (fun p => (p.1.data, p.2))

/-- Match one name of `names` as a prefix (the name lists are prefix-free). -/
def dropFirstTok : List (List Char) → List Char → Option (List Char)
  | [], _ => none
  | nm :: rest, l =>
    match dropTok nm l with
    | some l' => some l'
    | none => dropFirstTok rest l

/-- Match one month name as a prefix and return its month number. -/
def parseMonth : List (List Char × Nat) → List Char → Option (Nat × List Char)
  | [], _ => none
  | (nm, v) :: rest, l =>
    match dropTok nm l with
    | some l' => some (v, l')
    | none => parseMonth rest l

/-- A format-string space compiles to the regex `\s+`: at least one whitespace char. -/
def parseWs1 : List Char → Option (List Char)
  | [] => none
  | c :: rest => if c.isWhitespace then some (rest.dropWhile Char.isWhitespace) else none

/-- Numeric value of a digit string. -/
def digitsVal (ds : List Char) : Nat := ds.foldl (fun a c => a * 10 + (c.toNat - 48)) 0

/-- Expect the literal character `c`. -/
def expectCh (c : Char) : List Char → Option (List Char)
  | [] => none
  | x :: rest => if x = c then some rest else none

def isLeapYear (y : Nat) : Bool := y % 4 = 0 && (y % 100 ≠ 0 || y % 400 = 0)

def daysInMonth (y m : Nat) : Nat :=
  if m = 2 then (if isLeapYear y then 29 else 28)
  else if m = 4 ∨ m = 6 ∨ m = 9 ∨ m = 11 then 30 else 31

/-- A 1- or 2-digit numeric field with an inclusive value range (the regexes for
`%d`, `%I`, `%M` accept one or two digits constrained to the field's range). -/
def parseNum2 (lo hi : Nat) (l : List Char) : Option (Nat × List Char) :=
  let ds := l.takeWhile Char.isDigit
  let rest := l.dropWhile Char.isDigit
  if (ds.length = 1 ∨ ds.length = 2) ∧ lo ≤ digitsVal ds ∧ digitsVal ds ≤ hi then
    some (digitsVal ds, rest)
  else none

/-- The `%Y` field: exactly four digits. -/
def parseYear4 (l : List Char) : Option (Nat × List Char) :=
  let ds := l.takeWhile Char.isDigit
  let rest := l.dropWhile Char.isDigit
  if ds.length = 4 then some (digitsVal ds, rest) else none

/-- The `%p` field: `am` or `pm` (input already lowercased); `true` means PM. -/
def parseAmPm (l : List Char) : Option (Bool × List Char) :=
  match dropTok "am".data l with
  | some l' => some (false, l')
  | none =>
    match dropTok "pm".data l with
    | some l' => some (true, l')
    | none => none

/-- 12-hour to 24-hour conversion performed by `strptime` for `%I`/`%p`. -/
def to24Hour (isPm : Bool) (hour : Nat) : Nat :=
  if isPm then (if hour = 12 then 12 else hour + 12) else (if hour = 12 then 0 else hour)

/-- Model of `datetime.strptime(s, "%A %B %d,%Y %I:%M %p")` followed by the
`datetime` constructor's range checks.  Matching is case-insensitive (the input
is lowercased, as CPython matches the lowercased data string).  Returns
`(year, month, day, hour24, minute)`; `none` models a raised `ValueError`
(non-matching text, leftover text, or an out-of-range date). -/
def parseDatePart (l : List Char) : Option (Nat × Nat × Nat × List Char) :=
  (parseMonth monthNames l).bind fun ml =>
  (parseWs1 ml.2).bind fun l1 =>
  (parseNum2 1 31 l1).bind fun dl =>
  (expectCh ',' dl.2).bind fun l2 =>
  (parseYear4 l2).bind fun yl =>
  some (yl.1, ml.1, dl.1, yl.2)

def parseTimePart (l : List Char) : Option (Nat × Nat × Bool × List Char) :=
  (parseNum2 1 12 l).bind fun hl =>
  (expectCh ':' hl.2).bind fun l1 =>
  (parseNum2 0 59 l1).bind fun il =>
  (parseWs1 il.2).bind fun l2 =>
  (parseAmPm l2).bind fun pl =>
  some (hl.1, il.1, pl.1, pl.2)

def strptime_icloud (cs : List Char) : Option (Nat × Nat × Nat × Nat × Nat) :=
  (dropFirstTok weekdayNames (cs.map Char.toLower)).bind fun l1 =>
  (parseWs1 l1).bind fun l2 =>
  (parseDatePart l2).bind fun d =>
  (parseWs1 d.2.2.2).bind fun l3 =>
  (parseTimePart l3).bind fun t =>
  if t.2.2.2.isEmpty = true ∧ 1 ≤ d.1 ∧ d.2.2.1 ≤ daysInMonth d.1 d.2.1 then
    some (d.1, d.2.1, d.2.2.1, to24Hour t.2.2.1 t.1, t.2.1)
  else none

def digitCh (n : Nat) : Char := Char.ofNat (48 + n % 10)

def pad2 (n : Nat) : List Char := [digitCh (n / 10), digitCh n]

def pad4 (n : Nat) : List Char := [digitCh (n / 1000), digitCh (n / 100), digitCh (n / 10), digitCh n]

/-- Model of `dt.strftime("%Y:%m:%d %H:%M:%S")` (the parsed time has no seconds). -/
def strftime_exif : Nat × Nat × Nat × Nat × Nat → String
  | (y, m, d, h, mi) =>
    String.mk (pad4 y ++ ':' :: pad2 m ++ ':' :: pad2 d ++ ' ' :: pad2 h ++ ':' :: pad2 mi
      ++ ':' :: ['0', '0'])

/-- `parse_icloud_date` from the source: strip the input, drop a final
whitespace-separated token that is alphabetic and at most 5 characters long,
then `strptime` with the fixed format and re-format.  `none` models a raised
`ValueError`. -/
def parse_icloud_date (date_str : String) : Option String :=
  let s := pyStripChars date_str.data
  if s.isEmpty then none
  else
    let parts := splitWs s
    let s2 := match parts.getLast? with
      | some last =>
        if last.isEmpty = false ∧ last.all Char.isAlpha = true ∧ last.length ≤ 5 then
          joinSpace parts.dropLast
        else s
      | none => s
    (strptime_icloud s2).map strftime_exif

/-! ## Global constants of the script -/

def DONE_OUTPUT_DIRNAME : String := "NEW_IMAGES_SORTED"

def FINISH_OUTPUT_DIRNAME : String := "NEW_IMAGES_SORTED_FINISHING"

def VIDEO_EXTS : List String := [".mov", ".mp4", ".m4v", ".avi", ".mts", ".m2ts", ".3gp", ".3gpp"]

/-- `images_out / name`, the destination path of a copied file. -/
def images_out_path (name : String) : String :=
  FINISH_OUTPUT_DIRNAME ++ "/IMAGES/" ++ name

/-! ## Path helpers (`pathlib.Path.name` / `.suffix`) -/

/-- Split a character list on a separator character. -/
def splitOnCh (sep : Char) : List Char → List Char → List (List Char)
  | [], cur => [cur.reverse]
  | c :: rest, cur =>
    if c = sep then cur.reverse :: splitOnCh sep rest [] else splitOnCh sep rest (c :: cur)

/-- `Path(s).name`: the final path component. -/
def pyName (s : String) : String :=
  String.mk ((splitOnCh '/' s.data []).getLastD s.data)

/-- `Path(s).suffix`: the extension of the final component, including the dot;
empty when there is no dot, the dot is the first character, or the dot is last. -/
def pySuffix (s : String) : String :=
  let base := (splitOnCh '/' s.data []).getLastD s.data
  if base.contains '.' then
    let afterRev := base.reverse.takeWhile (fun c => c ≠ '.')
    let i := base.length - 1 - afterRev.length
    if 0 < i ∧ i < base.length - 1 then String.mk ('.' :: afterRev.reverse) else ""
  else ""

/-- Python `str.lower()` restricted to the ASCII strings used here. -/
def pyLower (s : String) : String := String.mk (s.data.map Char.toLower)

/-- Python `str.strip()` on a `String`. -/
def pyStrip (s : String) : String := String.mk (pyStripChars s.data)

/-! ## Completion filter (`read_done_names`, `load_skipped_names`) -/

/-- A directory listing entry: name and `is_file()`. -/
structure DirEntry where
  name : String
  is_file : Bool
deriving DecidableEq, Repr

/-- `read_done_names`: the prior image directory is `none` when it does not
exist, otherwise the list of its entries.  Result: names of the plain files. -/
def read_done_names (done_images_dir : Option (List DirEntry)) : List String :=
  match done_images_dir with
  | none => []
  | some entries => (entries.filter (fun e => e.is_file)).map (fun e => e.name)

/-- The three prior failure-ledger file names read by `load_skipped_names`. -/
def priorLedgerFiles : List String := ["CANNOT_BE_FOUND.csv", "BAD_DATE.csv", "EXIFTOOL_FAILED.csv"]

/-- The body of the row loop in `load_skipped_names`:
`if row and row[0]: skipped.add(row[0].strip())`. -/
def ledgerStep (acc : List String) (row : List String) : List String :=
  match row with
  | [] => acc
  | c :: _ => if c = "" then acc else acc ++ [pyStrip c]

/-- Names contributed by one prior ledger file.  The file content is
`none` when the file does not exist, `some none` when opening/reading raises,
and `some (some rows)` when it reads as CSV rows.  The first row (the header)
is skipped via `next(reader, None)`; of each later row the first column is kept
when it is a nonempty string. -/
def ledger_names (content : Option (Option (List (List String)))) : List String :=
  match content with
  | some (some rows) => (rows.drop 1).foldl ledgerStep []
  | _ => []

/-- `load_skipped_names`: union (as a list, membership-wise) of the first-column
names of the three known prior failure ledgers. -/
def load_skipped_names (prev_errors : String → Option (Option (List (List String)))) :
    List String :=
  priorLedgerFiles.foldl (fun acc fname => acc ++ ledger_names (prev_errors fname)) []

/-! ## Catalog scanner -/

/-- One CSV data row, reduced to the two fields the scan reads
(`row.get("imgName")`, `row.get("originalCreationDate")`; `none` models a
missing/`None` value). -/
structure CsvRow where
  imgName : Option String
  origDate : Option String
deriving DecidableEq, Repr

/-- One CSV file: its path and either `none` (opening/reading raises) or its
header field names and data rows. -/
structure CsvFileM where
  path : String
  content : Option (List String × List CsvRow)
deriving DecidableEq, Repr

/-- A remaining item: name, raw date string and originating catalog file.
The scan builds `needed_date` and `needed_csv` keyed by the same names; the
two dicts are represented together as one list of triples. -/
structure Item where
  name : String
  rawDate : String
  csvFile : String
deriving DecidableEq, Repr

/-- The rows a CSV file contributes: none when it is unreadable, has no header,
or its header lacks one of the two required columns. -/
def fileRows (f : CsvFileM) : List (CsvRow × String) :=
  match f.content with
  | none => []
  | some (fields, rows) =>
    if fields.isEmpty = false ∧ "imgName" ∈ fields ∧ "originalCreationDate" ∈ fields then
      rows.map (fun r => (r, f.path))
    else []

def rowName (rc : CsvRow × String) : String := pyStrip (rc.1.imgName.getD "")

def rowRaw (rc : CsvRow × String) : String := pyStrip (rc.1.origDate.getD "")

/-- The body of the row loop: skip empty names, names already done or skipped,
and names already recorded (first occurrence wins). -/
def scanRow (done_names skipped_names : List String) (acc : List Item) (rc : CsvRow × String) :
    List Item :=
  let name := rowName rc
  if name = "" then acc
  else if name ∈ done_names ∨ name ∈ skipped_names then acc
  else if acc.any (fun it => it.name == name) then acc
  else acc ++ [⟨name, rowRaw rc, rc.2⟩]

def scanFile (done_names skipped_names : List String) (acc : List Item) (f : CsvFileM) :
    List Item :=
  (fileRows f).foldl (scanRow done_names skipped_names) acc

/-- The whole catalog scan over all CSV files, producing the remaining items
in catalog-discovery order. -/
def scanAll (done_names skipped_names : List String) (files : List CsvFileM) : List Item :=
  files.foldl (scanFile done_names skipped_names) []

/-! ## File locator (walk of the export folders) -/

/-- One entry produced by `folder.rglob("*")` over all export folders, in
traversal order: the path string and `is_file()`. -/
structure WalkEntry where
  path : String
  is_file : Bool
deriving DecidableEq, Repr

/-- Append a path to a name's candidate list, `defaultdict(list)`-style:
the key keeps its first-touch position, the path list grows at the end. -/
def assocAppend : List (String × List String) → String → String → List (String × List String)
  | [], k, v => [(k, [v])]
  | (k', vs) :: rest, k, v =>
    if k' = k then (k', vs ++ [v]) :: rest else (k', vs) :: assocAppend rest k v

/-- The walk: skip non-files and `.csv` files; collect paths of files whose
base name is in the remaining set. -/
def build_found_paths (remaining : List String) (walk : List WalkEntry) :
    List (String × List String) :=
  walk.foldl
    (fun acc w =>
      if w.is_file = true ∧ pyLower (pySuffix w.path) ≠ ".csv" ∧ pyName w.path ∈ remaining then
        assocAppend acc (pyName w.path) w.path
      else acc) []

/-- `found_paths.get(name, [])`. -/
def lookupPaths (found : List (String × List String)) (name : String) : List String :=
  (found.lookup name).getD []

/-- The duplicates dict: located names with more than one candidate path. -/
def duplicatesOf (found : List (String × List String)) : List (String × List String) :=
  found.filter (fun p => p.2.length > 1)

/-- One DUPLICATES.csv row: `row.extend([name, str(p)])` for each path. -/
def dupRow (name : String) (paths : List String) : List String :=
  paths.foldl (fun r p => r ++ [name, p]) []

/-- The full content of DUPLICATES.csv: one row per duplicate name, no header. -/
def dupRows (dups : List (String × List String)) : List (List String) :=
  dups.map (fun p => dupRow p.1 p.2)

/-! ## `safe_copy` -/

/-- `safe_copy` over a filesystem modelled as an association of paths to file
contents.  `mkdir(parents=True, exist_ok=True)` does not change the file map.
If the destination exists the copy is skipped; otherwise `shutil.copy2` reads
the source (raising, i.e. `none`, when it is absent) and writes the
destination.  `some fs'` is the resulting filesystem; `none` models a raised
exception. -/
def safe_copy (fs : List (String × String)) (src dst : String) :
    Option (List (String × String)) :=
  if (fs.lookup dst).isSome then some fs
  else
    match fs.lookup src with
    | none => none
    | some content => some (fs ++ [(dst, content)])

/-! ## Reconciliation driver -/

/-- Terminal classification of one remaining item within a run. -/
inductive Outcome
  | processed
  | duplicate
  | missing
  | badDate
  | stampFailed
deriving DecidableEq, Repr

/-- Externally visible actions of a run, in order. -/
inductive Event
  | mkdirImagesOut
  | mkdirErrorsOut
  | walkExports
  | writeFile (fname : String) (content : List (List String))
  | copy (src dst : String)
  | stampCmd (args : List String)
deriving DecidableEq, Repr

/-- The mutable per-run ledgers and counters of `main`. -/
structure RunState where
  missing : List (List String)
  bad_date : List (List String)
  exiftool_failed : List (List String)
  processed : Nat
  skipped_dup : Nat
deriving DecidableEq, Repr

def initState : RunState := ⟨[], [], [], 0, 0⟩

/-- The ExifTool argument list submitted for one destination and timestamp:
video extensions get CreateDate/MediaCreateDate/TrackCreateDate, everything
else DateTimeOriginal/CreateDate. -/
def stampArgs (dst exif_date : String) : List String :=
  if pyLower (pySuffix dst) ∈ VIDEO_EXTS then
    ["-overwrite_original", "-CreateDate=" ++ exif_date, "-MediaCreateDate=" ++ exif_date,
     "-TrackCreateDate=" ++ exif_date, dst]
  else
    ["-overwrite_original", "-DateTimeOriginal=" ++ exif_date, "-CreateDate=" ++ exif_date, dst]

/-- The body of the per-item loop.  `copy_ok name = false` models `safe_copy`
raising for that item; `stamp_ok name` is ExifTool's per-command verdict.
Returns the updated state and the events this item caused. -/
def stepItem (found : List (String × List String)) (copy_ok stamp_ok : String → Bool)
    (st : RunState) (it : Item) : RunState × List Event :=
  match lookupPaths found it.name with
  | [] => ({ st with missing := st.missing ++ [[it.name, it.csvFile]] }, [])
  | src :: restPaths =>
    if restPaths.isEmpty = false then
      ({ st with skipped_dup := st.skipped_dup + 1 }, [])
    else
      let dst := images_out_path it.name
      if copy_ok it.name = false then
        ({ st with missing := st.missing ++ [[it.name, it.csvFile]] }, [Event.copy src dst])
      else
        match parse_icloud_date it.rawDate with
        | none =>
          ({ st with bad_date := st.bad_date ++ [[it.name, it.rawDate, it.csvFile]] },
           [Event.copy src dst])
        | some exif_date =>
          if stamp_ok it.name then
            ({ st with processed := st.processed + 1 },
             [Event.copy src dst, Event.stampCmd (stampArgs dst exif_date)])
          else
            ({ st with exiftool_failed :=
                st.exiftool_failed ++ [[it.name, exif_date, dst, it.csvFile]] },
             [Event.copy src dst, Event.stampCmd (stampArgs dst exif_date)])

/-- The outcome the loop body assigns to an item (same decision chain as
`stepItem`). -/
def classify (found : List (String × List String)) (copy_ok stamp_ok : String → Bool)
    (it : Item) : Outcome :=
  match lookupPaths found it.name with
  | [] => Outcome.missing
  | _ :: restPaths =>
    if restPaths.isEmpty = false then Outcome.duplicate
    else if copy_ok it.name = false then Outcome.missing
    else
      match parse_icloud_date it.rawDate with
      | none => Outcome.badDate
      | some _ => if stamp_ok it.name then Outcome.processed else Outcome.stampFailed

/-- The state change `stepItem` performs, keyed by the assigned outcome. -/
def applyOutcome (st : RunState) (it : Item) : Outcome → RunState
  | Outcome.missing => { st with missing := st.missing ++ [[it.name, it.csvFile]] }
  | Outcome.duplicate => { st with skipped_dup := st.skipped_dup + 1 }
  | Outcome.badDate => { st with bad_date := st.bad_date ++ [[it.name, it.rawDate, it.csvFile]] }
  | Outcome.stampFailed =>
    { st with exiftool_failed := st.exiftool_failed ++
        [[it.name, (parse_icloud_date it.rawDate).getD "", images_out_path it.name, it.csvFile]] }
  | Outcome.processed => { st with processed := st.processed + 1 }

/-- The events `stepItem` emits for one item. -/
def eventsOf (found : List (String × List String)) (copy_ok : String → Bool) (it : Item) :
    List Event :=
  match lookupPaths found it.name with
  | [] => []
  | src :: restPaths =>
    if restPaths.isEmpty = false then []
    else
      let dst := images_out_path it.name
      if copy_ok it.name = false then [Event.copy src dst]
      else
        match parse_icloud_date it.rawDate with
        | none => [Event.copy src dst]
        | some exif_date => [Event.copy src dst, Event.stampCmd (stampArgs dst exif_date)]

/-- The per-item loop over the remaining items. -/
def runItems (found : List (String × List String)) (copy_ok stamp_ok : String → Bool) :
    List Item → RunState → RunState × List Event
  | [], st => (st, [])
  | it :: rest, st =>
    let se := stepItem found copy_ok stamp_ok st it
    let fin := runItems found copy_ok stamp_ok rest se.1
    (fin.1, se.2 ++ fin.2)

/-! ## The whole run (`main`) -/

/-- Why a run aborted (`SystemExit`). -/
inductive AbortReason
  | noExportFolders
  | exiftoolNotFound
deriving DecidableEq, Repr

/-- All inputs of one run. -/
structure MainEnv where
  /-- Immediate children of the root whose name contains "iCloud Photos". -/
  export_folders : List String
  /-- Listing of `NEW_IMAGES_SORTED/IMAGES`, `none` when it does not exist. -/
  done_images : Option (List DirEntry)
  /-- Contents of the prior error ledgers, by file name. -/
  prev_errors : String → Option (Option (List (List String)))
  /-- All `*.csv` files under the root, in `rglob` order. -/
  csv_files : List CsvFileM
  /-- The recursive listing of all export folders, in traversal order. -/
  walk : List WalkEntry
  /-- Whether `exiftool` resolves on PATH (`Popen` succeeds). -/
  exiftool_present : Bool
  /-- Per-item oracle: `safe_copy` does not raise. -/
  copy_ok : String → Bool
  /-- Per-item oracle: ExifTool answers `{ready}` for this item's command. -/
  stamp_ok : String → Bool

/-- Result of a run: the events in order, the abort reason if any, and the
final ledgers/counters when the per-item phase ran. -/
structure MainResult where
  events : List Event
  aborted : Option AbortReason
  state : Option RunState

/-- The remaining items a run computes from its catalog scan. -/
def remaining_items (env : MainEnv) : List Item :=
  scanAll (read_done_names env.done_images) (load_skipped_names env.prev_errors) env.csv_files

/-- The located-paths map a run builds from its walk. -/
def found_of (env : MainEnv) : List (String × List String) :=
  build_found_paths ((remaining_items env).map Item.name) env.walk

/-- The duplicates among the remaining items of a run. -/
def duplicates_of (env : MainEnv) : List (String × List String) := duplicatesOf (found_of env)

/-- The script's `main` (named `main_run` since `main` is reserved in Lean): create output directories; abort when no export folder exists;
read the completion sets and scan the catalogs; return early when nothing
remains; walk the export folders; write DUPLICATES.csv; start ExifTool
(aborting when absent); process every remaining item; write the three
failure ledgers with their headers. -/
def main_run (env : MainEnv) : MainResult :=
  let ev0 := [Event.mkdirImagesOut, Event.mkdirErrorsOut]
  if env.export_folders.isEmpty then
    { events := ev0, aborted := some AbortReason.noExportFolders, state := none }
  else
    let items := remaining_items env
    if items.isEmpty then { events := ev0, aborted := none, state := none }
    else
      let found := found_of env
      let ev1 := ev0 ++ [Event.walkExports, Event.writeFile "DUPLICATES.csv" (dupRows (duplicatesOf found))]
      if env.exiftool_present = false then
        { events := ev1, aborted := some AbortReason.exiftoolNotFound, state := none }
      else
        let run := runItems found env.copy_ok env.stamp_ok items initState
        { events := ev1 ++ run.2 ++
            [Event.writeFile "CANNOT_BE_FOUND.csv" (["imgName", "csvFile"] :: run.1.missing),
             Event.writeFile "BAD_DATE.csv" (["imgName", "rawDate", "csvFile"] :: run.1.bad_date),
             Event.writeFile "EXIFTOOL_FAILED.csv"
               (["imgName", "exifDate", "outputFile", "csvFile"] :: run.1.exiftool_failed)],
          aborted := none, state := some run.1 }

/-! ## Definitions used only to state the claims -/

/-- The item a row would contribute to the scan. -/
def itemOfRow (rc : CsvRow × String) : Item := ⟨rowName rc, rowRaw rc, rc.2⟩

/-- A row passes the scan's per-row filters: nonempty name, not already done
or previously skipped. -/
def rowEligible (done_names skipped_names : List String) (rc : CsvRow × String) : Bool :=
  decide (rowName rc ≠ "" ∧ ¬(rowName rc ∈ done_names ∨ rowName rc ∈ skipped_names))

/-- Whether a ledger (list of rows) has a row keyed by `name` (first column). -/
def rows_have_name (rows : List (List String)) (name : String) : Bool :=
  rows.any (fun r => r.head? == some name)

/-- The final `RunState` of a full run. -/
def final_state (env : MainEnv) : RunState :=
  (runItems (found_of env) env.copy_ok env.stamp_ok (remaining_items env) initState).1

/-- The names of the items a run stamps successfully (the processed set). -/
def processed_names (env : MainEnv) : List String :=
  ((remaining_items env).filter
    (fun it => classify (found_of env) env.copy_ok env.stamp_ok it == Outcome.processed)).map
    Item.name

/-- For one name, its membership in the four ledgers and the processed set. -/
def outcome_flags (env : MainEnv) (name : String) : List Bool :=
  [rows_have_name (final_state env).missing name,
   (duplicates_of env).any (fun p => p.1 == name),
   rows_have_name (final_state env).bad_date name,
   rows_have_name (final_state env).exiftool_failed name,
   (processed_names env).any (fun n => n == name)]

/-! ## Concrete run inputs for witnesses and counterexamples -/

/-- A one-row catalog file. -/
def csvOne (path name date : String) : CsvFileM :=
  ⟨path, some (["imgName", "originalCreationDate"], [⟨some name, some date⟩])⟩

/-- One remaining item, one located file, ExifTool absent. -/
def envC4 : MainEnv :=
  { export_folders := ["iCloud Photos Part 1"]
    done_images := none
    prev_errors := fun _ => none
    csv_files := [csvOne "icloud.csv" "IMG_0001.JPG" "Tuesday March 5,2024 10:15 AM PST"]
    walk := [⟨"iCloud Photos Part 1/IMG_0001.JPG", true⟩]
    exiftool_present := false
    copy_ok := fun _ => true
    stamp_ok := fun _ => true }

/-- Export folders exist but the catalog scan leaves nothing to process. -/
def envC10 : MainEnv :=
  { export_folders := ["iCloud Photos Part 1"]
    done_images := none
    prev_errors := fun _ => none
    csv_files := []
    walk := []
    exiftool_present := true
    copy_ok := fun _ => true
    stamp_ok := fun _ => true }

/-- Four remaining items: one processed, one missing, one duplicated on disk,
one with an unparsable date. -/
def envC2 : MainEnv :=
  { export_folders := ["iCloud Photos Part 1"]
    done_images := none
    prev_errors := fun _ => none
    csv_files := [⟨"icloud.csv", some (["imgName", "originalCreationDate"],
      [⟨some "a.jpg", some "Tuesday March 5,2024 10:15 AM PST"⟩,
       ⟨some "b.jpg", some "Tuesday March 5,2024 10:15 AM PST"⟩,
       ⟨some "c.jpg", some "Tuesday March 5,2024 10:15 AM PST"⟩,
       ⟨some "d.jpg", some "Tuesday March 5,2024 10:15 AM"⟩])⟩]
    walk := [⟨"iCloud Photos Part 1/a.jpg", true⟩,
             ⟨"iCloud Photos Part 1/c.jpg", true⟩,
             ⟨"iCloud Photos Part 1/sub/c.jpg", true⟩,
             ⟨"iCloud Photos Part 1/d.jpg", true⟩]
    exiftool_present := true
    copy_ok := fun _ => true
    stamp_ok := fun _ => true }

/-- One remaining item whose base name occurs under two export paths. -/
def envC3 : MainEnv :=
  { export_folders := ["iCloud Photos Part 1"]
    done_images := none
    prev_errors := fun _ => none
    csv_files := [csvOne "icloud.csv" "dup.jpg" "Tuesday March 5,2024 10:15 AM PST"]
    walk := [⟨"iCloud Photos Part 1/dup.jpg", true⟩,
             ⟨"iCloud Photos Part 1/sub/dup.jpg", true⟩]
    exiftool_present := true
    copy_ok := fun _ => true
    stamp_ok := fun _ => true }

/-- A run with a duplicated item (the Duplicates ledger gets a data row). -/
def envC8 : MainEnv :=
  { export_folders := ["iCloud Photos Part 1"]
    done_images := none
    prev_errors := fun _ => none
    csv_files := [csvOne "icloud.csv" "e.jpg" "Tuesday March 5,2024 10:15 AM PST"]
    walk := [⟨"iCloud Photos Part 1/e.jpg", true⟩,
             ⟨"iCloud Photos Part 1/sub/e.jpg", true⟩]
    exiftool_present := true
    copy_ok := fun _ => true
    stamp_ok := fun _ => true }

/-- A run with no duplicated item (the Duplicates ledger is written empty). -/
def envC8b : MainEnv :=
  { export_folders := ["iCloud Photos Part 1"]
    done_images := none
    prev_errors := fun _ => none
    csv_files := [csvOne "icloud.csv" "f.jpg" "Tuesday March 5,2024 10:15 AM PST"]
    walk := [⟨"iCloud Photos Part 1/f.jpg", true⟩]
    exiftool_present := true
    copy_ok := fun _ => true
    stamp_ok := fun _ => true }

/-! # Theorems -/

/-! ## Generic helper lemmas -/

theorem option_or_none (o : Option α) : o.or none = o := by cases o <;> rfl

theorem list_find_singleton (p : α → Bool) (a : α) :
    [a].find? p = if p a then some a else none := by
  by_cases h : p a <;> simp [List.find?, h]

/-! ## Claim support: catalog scan characterization -/

theorem scanRow_find (done_names skipped_names : List String) (acc : List Item)
    (rc : CsvRow × String) (name : String) :
    (scanRow done_names skipped_names acc rc).find? (fun it => it.name == name) =
      (acc.find? (fun it => it.name == name)).or
        (if rowEligible done_names skipped_names rc && (rowName rc == name) then
          some (itemOfRow rc) else none) := by
  unfold scanRow rowEligible
  by_cases h1 : rowName rc = ""
  · simp [h1, option_or_none]
  · by_cases h2 : rowName rc ∈ done_names ∨ rowName rc ∈ skipped_names
    · simp [h1, h2, option_or_none]
    · by_cases h3 : acc.any (fun it => it.name == rowName rc)
      · rw [if_neg h1, if_neg h2, if_pos h3]
        by_cases h4 : rowName rc = name
        · subst h4
          obtain ⟨v, hv, hvn⟩ := List.any_eq_true.mp h3
          have : acc.find? (fun it => it.name == rowName rc) |>.isSome :=
            List.find?_isSome.mpr ⟨v, hv, hvn⟩
          obtain ⟨w, hw⟩ := Option.isSome_iff_exists.mp this
          simp [hw, h1, h2, Option.or]
        · have : (rowName rc == name) = false := by simp [h4]
          simp [this, option_or_none]
      · rw [if_neg h1, if_neg h2, if_neg h3, List.find?_append, list_find_singleton]
        have hn : (itemOfRow rc).name = rowName rc := rfl
        by_cases h4 : rowName rc = name
        · subst h4
          simp [itemOfRow, h1, h2]
        · have : (rowName rc == name) = false := by simp [h4]
          simp [itemOfRow, this, option_or_none]

theorem scanFold_find (done_names skipped_names : List String) (rcs : List (CsvRow × String))
    (acc : List Item) (name : String) :
    (rcs.foldl (scanRow done_names skipped_names) acc).find? (fun it => it.name == name) =
      (acc.find? (fun it => it.name == name)).or
        ((rcs.find?
            (fun rc => rowEligible done_names skipped_names rc && (rowName rc == name))).map
          itemOfRow) := by
  induction rcs generalizing acc with
  | nil => simp [option_or_none]
  | cons rc rcs ih =>
    rw [List.foldl_cons, ih, scanRow_find, List.find?_cons]
    by_cases hp : rowEligible done_names skipped_names rc && (rowName rc == name)
    · rw [if_pos hp, hp]
      cases acc.find? (fun it => it.name == name) <;> simp [Option.or]
    · rw [if_neg hp]
      have : (rowEligible done_names skipped_names rc && (rowName rc == name)) = false := by
        simpa using hp
      rw [this, option_or_none]

theorem scanAll_eq_fold (done_names skipped_names : List String) (files : List CsvFileM)
    (acc : List Item) :
    files.foldl (scanFile done_names skipped_names) acc =
      ((files.map fileRows).flatten).foldl (scanRow done_names skipped_names) acc := by
  induction files generalizing acc with
  | nil => rfl
  | cons f files ih =>
    rw [List.foldl_cons, ih, List.map_cons, List.flatten_cons, List.foldl_append]
    rfl

theorem ledger_fold_mem (rows : List (List String)) (acc : List String) (name : String) :
    name ∈ rows.foldl ledgerStep acc ↔
      name ∈ acc ∨ ∃ row ∈ rows, ∃ c cs, row = c :: cs ∧ c ≠ "" ∧ pyStrip c = name := by
  induction rows generalizing acc with
  | nil => simp
  | cons row rows ih =>
    rw [List.foldl_cons, ih]
    cases row with
    | nil => simp [ledgerStep]
    | cons c cs =>
      by_cases hc : c = ""
      · subst hc
        simp [ledgerStep]
      · have hstep : ledgerStep acc (c :: cs) = acc ++ [pyStrip c] := by
          simp [ledgerStep, hc]
        rw [hstep]
        constructor
        · intro h
          rcases h with h | ⟨r, hr, hrest⟩
          · rcases List.mem_append.mp h with h' | h'
            · exact Or.inl h'
            · exact Or.inr ⟨c :: cs, List.mem_cons_self _ _, c, cs, rfl, hc,
                (List.mem_singleton.mp h').symm⟩
          · exact Or.inr ⟨r, List.mem_cons_of_mem _ hr, hrest⟩
        · intro h
          rcases h with h | ⟨r, hr, c', cs', hrow, hc', hstrip⟩
          · exact Or.inl (List.mem_append.mpr (Or.inl h))
          · rcases List.mem_cons.mp hr with he | hm
            · rw [he] at hrow
              injection hrow with h1 h2
              subst h1
              exact Or.inl (List.mem_append.mpr (Or.inr (List.mem_singleton.mpr hstrip.symm)))
            · exact Or.inr ⟨r, hm, c', cs', hrow, hc', hstrip⟩

theorem mem_ledger_names (content : Option (Option (List (List String)))) (name : String) :
    name ∈ ledger_names content ↔
      ∃ rows, content = some (some rows) ∧
        ∃ row ∈ rows.drop 1, ∃ c cs, row = c :: cs ∧ c ≠ "" ∧ pyStrip c = name := by
  match content with
  | none => simp [ledger_names]
  | some none => simp [ledger_names]
  | some (some rows) =>
    rw [show ledger_names (some (some rows)) = (rows.drop 1).foldl ledgerStep [] from rfl,
      ledger_fold_mem]
    simp

/-! ## Claim theorems -/

/-- Claim C1 (code bug): the claim states that every input matching the
documented pattern, with or without a trailing alphabetic timezone token of at
most 5 characters, yields the canonical timestamp, and in particular
`"Tuesday March 5,2024 10:15 AM"` parses to `"2024:03:05 10:15:00"`.  In the
code the AM/PM meridiem token itself is alphabetic and 2 characters long, so
for an input without a timezone token it is stripped as if it were the
timezone, and the remaining text no longer matches the format: the parse
raises (`none`).  Inputs with a timezone token do parse to the canonical
timestamp (including the spec's other example). -/
theorem c1_no_timezone_input_fails :
    parse_icloud_date "Tuesday March 5,2024 10:15 AM" = none ∧
    parse_icloud_date "Tuesday March 5,2024 10:15 AM PST" = some "2024:03:05 10:15:00" ∧
    parse_icloud_date "Monday January 2,2023 3:45 PM PST" = some "2023:01:02 15:45:00" := by
  refine ⟨?_, ?_, ?_⟩ <;> rfl

/-- Claim C6: during the catalog scan, empty-name rows and rows whose name is
already done or previously skipped contribute nothing, and when a name occurs
in several rows (across any files) the first occurrence's raw date and catalog
path are kept: the recorded item for any name is exactly the image of the
first eligible row with that name, over the concatenation of all readable
catalog files' rows. -/
theorem c6_scan_first_occurrence_wins (done_names skipped_names : List String)
    (files : List CsvFileM) (name : String) :
    (scanAll done_names skipped_names files).find? (fun it => it.name == name) =
      (((files.map fileRows).flatten).find?
        (fun rc => rowEligible done_names skipped_names rc && (rowName rc == name))).map
        itemOfRow := by
  show (files.foldl (scanFile done_names skipped_names) []).find? _ = _
  rw [scanAll_eq_fold, scanFold_find]
  rfl

/-- Claim C7: a name is in the completed set (prior-image names or
prior-failure names) iff it is the name of a plain file in the prior image
directory, or the stripped, nonempty first column of a row after the header
row of one of the three known prior failure ledgers; a missing prior directory
or a missing/unreadable ledger file contributes nothing. -/
theorem c7_completed_set_characterization (done_images : Option (List DirEntry))
    (prev_errors : String → Option (Option (List (List String)))) (name : String) :
    (name ∈ read_done_names done_images ∨ name ∈ load_skipped_names prev_errors) ↔
      ((∃ entries, done_images = some entries ∧ ∃ e ∈ entries, e.is_file = true ∧ e.name = name) ∨
       (∃ fname ∈ priorLedgerFiles, ∃ rows, prev_errors fname = some (some rows) ∧
         ∃ row ∈ rows.drop 1, ∃ c cs, row = c :: cs ∧ c ≠ "" ∧ pyStrip c = name)) := by
  have h1 : name ∈ read_done_names done_images ↔
      ∃ entries, done_images = some entries ∧ ∃ e ∈ entries, e.is_file = true ∧ e.name = name := by
    cases done_images with
    | none => simp [read_done_names]
    | some entries =>
      simp only [read_done_names, List.mem_map, List.mem_filter, Option.some.injEq]
      constructor
      · rintro ⟨e, ⟨he, hf⟩, hn⟩
        exact ⟨entries, rfl, e, he, hf, hn⟩
      · rintro ⟨entries', heq, e, he, hf, hn⟩
        cases heq
        exact ⟨e, ⟨he, hf⟩, hn⟩
  have h2 : name ∈ load_skipped_names prev_errors ↔
      ∃ fname ∈ priorLedgerFiles, ∃ rows, prev_errors fname = some (some rows) ∧
        ∃ row ∈ rows.drop 1, ∃ c cs, row = c :: cs ∧ c ≠ "" ∧ pyStrip c = name := by
    show name ∈ priorLedgerFiles.foldl (fun acc fname => acc ++ ledger_names (prev_errors fname)) []
        ↔ _
    rw [show priorLedgerFiles.foldl
          (fun acc fname => acc ++ ledger_names (prev_errors fname)) [] =
        (([] ++ ledger_names (prev_errors "CANNOT_BE_FOUND.csv")) ++
          ledger_names (prev_errors "BAD_DATE.csv")) ++
          ledger_names (prev_errors "EXIFTOOL_FAILED.csv") from rfl]
    simp only [List.nil_append, List.mem_append, mem_ledger_names, priorLedgerFiles,
      List.mem_cons, List.mem_singleton, List.not_mem_nil]
    constructor
    · rintro ((h | h) | h)
      · exact ⟨"CANNOT_BE_FOUND.csv", Or.inl rfl, h⟩
      · exact ⟨"BAD_DATE.csv", Or.inr (Or.inl rfl), h⟩
      · exact ⟨"EXIFTOOL_FAILED.csv", Or.inr (Or.inr (Or.inl rfl)), h⟩
    · rintro ⟨fname, (rfl | rfl | rfl | hf), h⟩
      · exact Or.inl (Or.inl h)
      · exact Or.inl (Or.inr h)
      · exact Or.inr h
      · exact hf.elim
  rw [h1, h2]

/-- Claim C9: when the destination file already exists, `safe_copy` leaves the
whole filesystem unchanged (in particular the destination file) and raises
nothing. -/
theorem c9_existing_destination_skip (fs : List (String × String)) (src dst : String)
    (h : (fs.lookup dst).isSome = true) :
    safe_copy fs src dst = some fs := by
  simp [safe_copy, h]

theorem c9_witness :
    ((([("NEW_IMAGES_SORTED_FINISHING/IMAGES/IMG_0001.JPG", "old bytes")] :
        List (String × String)).lookup
          "NEW_IMAGES_SORTED_FINISHING/IMAGES/IMG_0001.JPG").isSome = true) ∧
      safe_copy [("NEW_IMAGES_SORTED_FINISHING/IMAGES/IMG_0001.JPG", "old bytes")]
          "iCloud Photos/IMG_0001.JPG" "NEW_IMAGES_SORTED_FINISHING/IMAGES/IMG_0001.JPG" =
        some [("NEW_IMAGES_SORTED_FINISHING/IMAGES/IMG_0001.JPG", "old bytes")] :=
  ⟨by decide, c9_existing_destination_skip _ _ _ (by decide)⟩

/-- Claim C5: the empty string fails to parse, as do garbled text and an
invalid calendar date; and when an item's raw date fails to parse (after its
single located candidate was copied), the loop body classifies it BadDate,
appending exactly its row to the BadDate ledger, and the run continues with
the remaining items (the loop over `it :: rest` equals the BadDate update
followed by the loop over `rest`): a parse failure never escapes the per-item
boundary. -/
theorem c5_bad_date_classified (found : List (String × List String))
    (copy_ok stamp_ok : String → Bool) (st : RunState) (it : Item) (rest : List Item)
    (p : String) (hp : lookupPaths found it.name = [p]) (hc : copy_ok it.name = true)
    (hd : parse_icloud_date it.rawDate = none) :
    parse_icloud_date "" = none ∧
    parse_icloud_date "garbled text" = none ∧
    parse_icloud_date "Monday February 30,2021 1:00 PM PST" = none ∧
    stepItem found copy_ok stamp_ok st it =
      ({ st with bad_date := st.bad_date ++ [[it.name, it.rawDate, it.csvFile]] },
        [Event.copy p (images_out_path it.name)]) ∧
    runItems found copy_ok stamp_ok (it :: rest) st =
      ((runItems found copy_ok stamp_ok rest
          { st with bad_date := st.bad_date ++ [[it.name, it.rawDate, it.csvFile]] }).1,
        Event.copy p (images_out_path it.name) ::
          (runItems found copy_ok stamp_ok rest
            { st with bad_date := st.bad_date ++ [[it.name, it.rawDate, it.csvFile]] }).2) := by
  have hstep : stepItem found copy_ok stamp_ok st it =
      ({ st with bad_date := st.bad_date ++ [[it.name, it.rawDate, it.csvFile]] },
        [Event.copy p (images_out_path it.name)]) := by
    unfold stepItem
    rw [hp]
    simp [hc, hd]
  refine ⟨rfl, rfl, rfl, hstep, ?_⟩
  show (let se := stepItem found copy_ok stamp_ok st it
        let fin := runItems found copy_ok stamp_ok rest se.1
        (fin.1, se.2 ++ fin.2)) = _
  rw [hstep]
  rfl

theorem c5_witness :
    stepItem [("a.jpg", ["iCloud Photos/a.jpg"])] (fun _ => true) (fun _ => true) initState
        ⟨"a.jpg", "March 5", "photos.csv"⟩ =
      ({ initState with bad_date := [["a.jpg", "March 5", "photos.csv"]] },
        [Event.copy "iCloud Photos/a.jpg" (images_out_path "a.jpg")]) :=
  (c5_bad_date_classified [("a.jpg", ["iCloud Photos/a.jpg"])] (fun _ => true) (fun _ => true)
    initState ⟨"a.jpg", "March 5", "photos.csv"⟩ [] "iCloud Photos/a.jpg"
    (by decide) rfl rfl).2.2.2.1

/-! ## Claim support: the per-item loop -/

theorem stepItem_eq (found : List (String × List String)) (copy_ok stamp_ok : String → Bool)
    (st : RunState) (it : Item) :
    stepItem found copy_ok stamp_ok st it =
      (applyOutcome st it (classify found copy_ok stamp_ok it), eventsOf found copy_ok it) := by
  unfold stepItem classify eventsOf
  cases h : lookupPaths found it.name with
  | nil => rfl
  | cons src restPaths =>
    by_cases h1 : restPaths.isEmpty = false
    · simp [h1, applyOutcome]
    · by_cases h2 : copy_ok it.name = false
      · simp [h1, h2, applyOutcome]
      · cases h3 : parse_icloud_date it.rawDate with
        | none => simp [h1, h2, h3, applyOutcome]
        | some exif_date =>
          by_cases h4 : stamp_ok it.name
          · simp [h1, h2, h3, h4, applyOutcome]
          · simp [h1, h2, h3, h4, applyOutcome]

theorem runItems_missing (found : List (String × List String))
    (copy_ok stamp_ok : String → Bool) (items : List Item) (st : RunState) :
    (runItems found copy_ok stamp_ok items st).1.missing =
      st.missing ++
        (items.filter (fun it => classify found copy_ok stamp_ok it == Outcome.missing)).map
          (fun it => [it.name, it.csvFile]) := by
  induction items generalizing st with
  | nil => simp [runItems]
  | cons it rest ih =>
    simp only [runItems, stepItem_eq]
    cases hcl : classify found copy_ok stamp_ok it <;>
      simp [applyOutcome, ih, hcl, List.filter_cons]

theorem runItems_bad_date (found : List (String × List String))
    (copy_ok stamp_ok : String → Bool) (items : List Item) (st : RunState) :
    (runItems found copy_ok stamp_ok items st).1.bad_date =
      st.bad_date ++
        (items.filter (fun it => classify found copy_ok stamp_ok it == Outcome.badDate)).map
          (fun it => [it.name, it.rawDate, it.csvFile]) := by
  induction items generalizing st with
  | nil => simp [runItems]
  | cons it rest ih =>
    simp only [runItems, stepItem_eq]
    cases hcl : classify found copy_ok stamp_ok it <;>
      simp [applyOutcome, ih, hcl, List.filter_cons]

theorem runItems_failed (found : List (String × List String))
    (copy_ok stamp_ok : String → Bool) (items : List Item) (st : RunState) :
    (runItems found copy_ok stamp_ok items st).1.exiftool_failed =
      st.exiftool_failed ++
        (items.filter (fun it => classify found copy_ok stamp_ok it == Outcome.stampFailed)).map
          (fun it => [it.name, (parse_icloud_date it.rawDate).getD "", images_out_path it.name,
            it.csvFile]) := by
  induction items generalizing st with
  | nil => simp [runItems]
  | cons it rest ih =>
    simp only [runItems, stepItem_eq]
    cases hcl : classify found copy_ok stamp_ok it <;>
      simp [applyOutcome, ih, hcl, List.filter_cons]

theorem runItems_processed (found : List (String × List String))
    (copy_ok stamp_ok : String → Bool) (items : List Item) (st : RunState) :
    (runItems found copy_ok stamp_ok items st).1.processed =
      st.processed +
        ((items.filter (fun it => classify found copy_ok stamp_ok it == Outcome.processed)).length) := by
  induction items generalizing st with
  | nil => simp [runItems]
  | cons it rest ih =>
    simp only [runItems, stepItem_eq]
    cases hcl : classify found copy_ok stamp_ok it <;>
      simp [applyOutcome, ih, hcl, List.filter_cons, Nat.add_assoc, Nat.add_comm 1]

theorem runItems_events (found : List (String × List String))
    (copy_ok stamp_ok : String → Bool) (items : List Item) (st : RunState) :
    (runItems found copy_ok stamp_ok items st).2 =
      (items.map (eventsOf found copy_ok)).flatten := by
  induction items generalizing st with
  | nil => simp [runItems]
  | cons it rest ih =>
    simp only [runItems, stepItem_eq]
    simp [ih]

theorem stampArgs_last (dst exif_date : String) : (stampArgs dst exif_date).getLastD "" = dst := by
  unfold stampArgs
  split <;> rfl

theorem restPaths_nil_of_not_isEmpty_false (restPaths : List String)
    (h : ¬restPaths.isEmpty = false) : restPaths = [] := by
  cases restPaths with
  | nil => rfl
  | cons a l => simp [List.isEmpty] at h

theorem copy_mem_eventsOf (found : List (String × List String)) (copy_ok : String → Bool)
    (it : Item) (a b : String) (h : Event.copy a b ∈ eventsOf found copy_ok it) :
    b = images_out_path it.name ∧ lookupPaths found it.name = [a] := by
  unfold eventsOf at h
  cases hl : lookupPaths found it.name with
  | nil => rw [hl] at h; simp at h
  | cons src restPaths =>
    rw [hl] at h
    dsimp only [] at h
    by_cases h1 : restPaths.isEmpty = false
    · rw [if_pos h1] at h
      simp at h
    · have hre : restPaths = [] := restPaths_nil_of_not_isEmpty_false restPaths h1
      subst hre
      rw [if_neg h1] at h
      by_cases h2 : copy_ok it.name = false
      · rw [if_pos h2] at h
        simp only [List.mem_singleton] at h
        injection h with ha hb
        exact ⟨hb, by rw [ha]⟩
      · rw [if_neg h2] at h
        cases h3 : parse_icloud_date it.rawDate with
        | none =>
          rw [h3] at h
          simp only [List.mem_singleton] at h
          injection h with ha hb
          exact ⟨hb, by rw [ha]⟩
        | some exif_date =>
          rw [h3] at h
          simp only [List.mem_cons, List.not_mem_nil, or_false] at h
          rcases h with h | h
          · injection h with ha hb
            exact ⟨hb, by rw [ha]⟩
          · exact Event.noConfusion h

theorem stamp_mem_eventsOf (found : List (String × List String)) (copy_ok : String → Bool)
    (it : Item) (args : List String) (h : Event.stampCmd args ∈ eventsOf found copy_ok it) :
    args.getLastD "" = images_out_path it.name ∧ ∃ src, lookupPaths found it.name = [src] := by
  unfold eventsOf at h
  cases hl : lookupPaths found it.name with
  | nil => rw [hl] at h; simp at h
  | cons src restPaths =>
    rw [hl] at h
    dsimp only [] at h
    by_cases h1 : restPaths.isEmpty = false
    · rw [if_pos h1] at h
      simp at h
    · have hre : restPaths = [] := restPaths_nil_of_not_isEmpty_false restPaths h1
      subst hre
      rw [if_neg h1] at h
      by_cases h2 : copy_ok it.name = false
      · rw [if_pos h2] at h
        simp at h
      · rw [if_neg h2] at h
        cases h3 : parse_icloud_date it.rawDate with
        | none => rw [h3] at h; simp at h
        | some exif_date =>
          rw [h3] at h
          simp only [List.mem_cons, List.not_mem_nil, or_false] at h
          rcases h with h | h
          · exact Event.noConfusion h
          · injection h with ha
            exact ⟨ha.symm ▸ stampArgs_last _ _, src, rfl⟩

theorem classify_duplicate_iff (found : List (String × List String))
    (copy_ok stamp_ok : String → Bool) (it : Item) :
    classify found copy_ok stamp_ok it = Outcome.duplicate ↔
      (lookupPaths found it.name).length > 1 := by
  unfold classify
  cases hl : lookupPaths found it.name with
  | nil => simp
  | cons src restPaths =>
    dsimp only []
    by_cases h1 : restPaths.isEmpty = false
    · have hne : restPaths ≠ [] := by
        intro he
        rw [he] at h1
        simp [List.isEmpty] at h1
      rw [if_pos h1]
      constructor
      · intro _
        have : 0 < restPaths.length := List.length_pos.mpr hne
        simp only [List.length_cons]
        omega
      · intro _
        rfl
    · have hre : restPaths = [] := restPaths_nil_of_not_isEmpty_false restPaths h1
      subst hre
      rw [if_neg h1]
      constructor
      · intro hcl
        exfalso
        by_cases h2 : copy_ok it.name = false
        · rw [if_pos h2] at hcl
          cases hcl
        · rw [if_neg h2] at hcl
          cases h3 : parse_icloud_date it.rawDate with
          | none => rw [h3] at hcl; cases hcl
          | some d =>
            rw [h3] at hcl
            by_cases h4 : stamp_ok it.name = true
            · rw [if_pos h4] at hcl; cases hcl
            · rw [if_neg h4] at hcl; cases hcl
      · intro hlen
        simp at hlen

/-! ## Claim support: association lists and the walk -/

theorem lookup_some_mem (l : List (String × List String)) (k : String) (v : List String)
    (h : l.lookup k = some v) : (k, v) ∈ l := by
  induction l with
  | nil => simp [List.lookup] at h
  | cons p rest ih =>
    rw [List.lookup] at h
    by_cases hk : (k == p.1) = true
    · rw [hk] at h
      injection h with hv
      have hp : p = (k, v) := Prod.ext (beq_iff_eq.mp hk).symm hv
      rw [hp]
      exact List.mem_cons_self _ _
    · rw [Bool.not_eq_true] at hk
      rw [hk] at h
      exact List.mem_cons_of_mem _ (ih h)

theorem lookup_eq_of_mem (l : List (String × List String)) (k : String) (v : List String)
    (hnd : (l.map Prod.fst).Nodup) (hm : (k, v) ∈ l) : l.lookup k = some v := by
  induction l with
  | nil => cases hm
  | cons p rest ih =>
    rcases List.mem_cons.mp hm with he | hm'
    · rw [← he, List.lookup]
      simp
    · have hk : ¬k = p.1 := by
        intro hkeq
        have h1 : p.1 ∉ rest.map Prod.fst := (List.nodup_cons.mp (by simpa using hnd)).1
        have h2 : k ∈ rest.map Prod.fst := List.mem_map.mpr ⟨(k, v), hm', rfl⟩
        rw [hkeq] at h2
        exact h1 h2
      rw [List.lookup]
      have : (k == p.1) = false := beq_eq_false_iff_ne.mpr hk
      rw [this]
      exact ih (List.nodup_cons.mp (by simpa using hnd)).2 hm'

theorem assocAppend_fst (acc : List (String × List String)) (k v : String) :
    (assocAppend acc k v).map Prod.fst =
      if k ∈ acc.map Prod.fst then acc.map Prod.fst else acc.map Prod.fst ++ [k] := by
  induction acc with
  | nil => simp [assocAppend]
  | cons p rest ih =>
    obtain ⟨k', vs⟩ := p
    by_cases hk : k' = k
    · subst hk
      simp [assocAppend]
    · have hk' : ¬k = k' := fun h => hk h.symm
      simp only [assocAppend, if_neg hk, List.map_cons, ih, List.mem_cons]
      by_cases hm : k ∈ rest.map Prod.fst
      · simp [hm, hk']
      · simp [hm, hk']

theorem assocAppend_keys_nodup (acc : List (String × List String)) (k v : String)
    (h : (acc.map Prod.fst).Nodup) : ((assocAppend acc k v).map Prod.fst).Nodup := by
  rw [assocAppend_fst]
  by_cases hm : k ∈ acc.map Prod.fst
  · rw [if_pos hm]
    exact h
  · rw [if_neg hm]
    rw [List.nodup_append]
    exact ⟨h, List.nodup_singleton k, by simpa [List.disjoint_singleton] using hm⟩

theorem assocAppend_mem (acc : List (String × List String)) (k v : String)
    (p : String × List String) (h : p ∈ assocAppend acc k v) : p.1 = k ∨ p ∈ acc := by
  induction acc with
  | nil =>
    simp only [assocAppend, List.mem_singleton] at h
    left
    rw [h]
  | cons q rest ih =>
    obtain ⟨k', vs⟩ := q
    rw [show assocAppend ((k', vs) :: rest) k v =
        (if k' = k then (k', vs ++ [v]) :: rest else (k', vs) :: assocAppend rest k v) from
      rfl] at h
    by_cases hk : k' = k
    · rw [if_pos hk] at h
      rcases List.mem_cons.mp h with h | h
      · left
        rw [h]
        exact hk
      · right
        exact List.mem_cons_of_mem _ h
    · rw [if_neg hk] at h
      rcases List.mem_cons.mp h with h | h
      · right
        exact List.mem_cons.mpr (Or.inl h)
      · rcases ih h with h' | h'
        · exact Or.inl h'
        · exact Or.inr (List.mem_cons_of_mem _ h')

theorem build_aux_keys_nodup (remaining : List String) (walk : List WalkEntry)
    (acc : List (String × List String)) (h : (acc.map Prod.fst).Nodup) :
    ((walk.foldl
        (fun acc w =>
          if w.is_file = true ∧ pyLower (pySuffix w.path) ≠ ".csv" ∧ pyName w.path ∈ remaining
          then assocAppend acc (pyName w.path) w.path
          else acc) acc).map Prod.fst).Nodup := by
  induction walk generalizing acc with
  | nil => exact h
  | cons w walk ih =>
    rw [List.foldl_cons]
    by_cases hc : w.is_file = true ∧ pyLower (pySuffix w.path) ≠ ".csv" ∧ pyName w.path ∈ remaining
    · rw [if_pos hc]
      exact ih _ (assocAppend_keys_nodup _ _ _ h)
    · rw [if_neg hc]
      exact ih _ h

theorem build_found_keys_nodup (remaining : List String) (walk : List WalkEntry) :
    ((build_found_paths remaining walk).map Prod.fst).Nodup :=
  build_aux_keys_nodup remaining walk [] List.nodup_nil

theorem build_aux_mem_remaining (remaining : List String) (walk : List WalkEntry)
    (acc : List (String × List String)) (hacc : ∀ q ∈ acc, q.1 ∈ remaining)
    (p : String × List String)
    (h : p ∈ walk.foldl
        (fun acc w =>
          if w.is_file = true ∧ pyLower (pySuffix w.path) ≠ ".csv" ∧ pyName w.path ∈ remaining
          then assocAppend acc (pyName w.path) w.path
          else acc) acc) : p.1 ∈ remaining := by
  induction walk generalizing acc with
  | nil => exact hacc p h
  | cons w walk ih =>
    rw [List.foldl_cons] at h
    by_cases hc : w.is_file = true ∧ pyLower (pySuffix w.path) ≠ ".csv" ∧ pyName w.path ∈ remaining
    · rw [if_pos hc] at h
      refine ih _ ?_ h
      intro q hq
      rcases assocAppend_mem _ _ _ _ hq with h' | h'
      · rw [h']
        exact hc.2.2
      · exact hacc q h'
    · rw [if_neg hc] at h
      exact ih _ hacc h

theorem build_found_mem_remaining (remaining : List String) (walk : List WalkEntry)
    (p : String × List String) (h : p ∈ build_found_paths remaining walk) : p.1 ∈ remaining :=
  build_aux_mem_remaining remaining walk [] (fun q hq => absurd hq (List.not_mem_nil q)) p h

/-! ## Claim support: the scan produces distinct names -/

theorem scanRow_names_nodup (done_names skipped_names : List String) (acc : List Item)
    (rc : CsvRow × String) (h : (acc.map Item.name).Nodup) :
    ((scanRow done_names skipped_names acc rc).map Item.name).Nodup := by
  unfold scanRow
  by_cases h1 : rowName rc = ""
  · rw [if_pos h1]
    exact h
  · rw [if_neg h1]
    by_cases h2 : rowName rc ∈ done_names ∨ rowName rc ∈ skipped_names
    · rw [if_pos h2]
      exact h
    · rw [if_neg h2]
      by_cases h3 : acc.any (fun it => it.name == rowName rc) = true
      · rw [if_pos h3]
        exact h
      · rw [if_neg h3]
        rw [List.map_append, List.nodup_append]
        refine ⟨h, List.nodup_singleton _, ?_⟩
        intro a ha hb
        simp only [List.map_cons, List.map_nil, List.mem_singleton] at hb
        subst hb
        obtain ⟨it, hit, hname⟩ := List.mem_map.mp ha
        exact h3 (List.any_eq_true.mpr ⟨it, hit, by simp [hname]⟩)

theorem scanFold_names_nodup (done_names skipped_names : List String)
    (rcs : List (CsvRow × String)) (acc : List Item) (h : (acc.map Item.name).Nodup) :
    (((rcs.foldl (scanRow done_names skipped_names) acc).map Item.name)).Nodup := by
  induction rcs generalizing acc with
  | nil => exact h
  | cons rc rcs ih =>
    rw [List.foldl_cons]
    exact ih _ (scanRow_names_nodup _ _ _ _ h)

theorem scanAll_names_nodup (done_names skipped_names : List String) (files : List CsvFileM) :
    ((scanAll done_names skipped_names files).map Item.name).Nodup := by
  show ((files.foldl (scanFile done_names skipped_names) []).map Item.name).Nodup
  rw [scanAll_eq_fold]
  exact scanFold_names_nodup _ _ _ _ List.nodup_nil

theorem remaining_names_nodup (env : MainEnv) :
    ((remaining_items env).map Item.name).Nodup :=
  scanAll_names_nodup _ _ _

/-! ## Claim support: unfolding a whole run -/

theorem main_run_full (env : MainEnv) (h1 : env.export_folders ≠ [])
    (h2 : remaining_items env ≠ []) (h3 : env.exiftool_present = true) :
    main_run env =
      { events := [Event.mkdirImagesOut, Event.mkdirErrorsOut, Event.walkExports,
          Event.writeFile "DUPLICATES.csv" (dupRows (duplicates_of env))] ++
          (runItems (found_of env) env.copy_ok env.stamp_ok (remaining_items env) initState).2 ++
          [Event.writeFile "CANNOT_BE_FOUND.csv"
              (["imgName", "csvFile"] :: (final_state env).missing),
           Event.writeFile "BAD_DATE.csv"
              (["imgName", "rawDate", "csvFile"] :: (final_state env).bad_date),
           Event.writeFile "EXIFTOOL_FAILED.csv"
              (["imgName", "exifDate", "outputFile", "csvFile"] ::
                (final_state env).exiftool_failed)],
        aborted := none, state := some (final_state env) } := by
  unfold main_run
  have he1 : env.export_folders.isEmpty = false := by
    simp [List.isEmpty_iff, h1]
  have he2 : (remaining_items env).isEmpty = false := by
    simp [List.isEmpty_iff, h2]
  simp only [he1, Bool.false_eq_true, if_false, he2, h3]
  simp [final_state, duplicates_of]

theorem main_run_nothing_left (env : MainEnv) (h1 : env.export_folders ≠ [])
    (h2 : remaining_items env = []) :
    main_run env =
      { events := [Event.mkdirImagesOut, Event.mkdirErrorsOut], aborted := none,
        state := none } := by
  unfold main_run
  have he1 : env.export_folders.isEmpty = false := by
    simp [List.isEmpty_iff, h1]
  have he2 : (remaining_items env).isEmpty = true := by
    simp [List.isEmpty_iff, h2]
  simp only [he1, Bool.false_eq_true, if_false, he2, if_true]

theorem main_run_no_exiftool (env : MainEnv) (h1 : env.export_folders ≠ [])
    (h2 : remaining_items env ≠ []) (h3 : env.exiftool_present = false) :
    main_run env =
      { events := [Event.mkdirImagesOut, Event.mkdirErrorsOut, Event.walkExports,
          Event.writeFile "DUPLICATES.csv" (dupRows (duplicates_of env))],
        aborted := some AbortReason.exiftoolNotFound, state := none } := by
  unfold main_run
  have he1 : env.export_folders.isEmpty = false := by
    simp [List.isEmpty_iff, h1]
  have he2 : (remaining_items env).isEmpty = false := by
    simp [List.isEmpty_iff, h2]
  simp only [he1, Bool.false_eq_true, if_false, he2, h3]
  simp [duplicates_of]

/-- Claim C10: when the catalog scan leaves nothing to process, the run
returns immediately (after a message, which is not modelled): the only events
are the creation of the output IMAGES and ERRORS directories; the export walk
is not performed and none of the four ledger files is written, not even with
just a header row. -/
theorem c10_nothing_left_early_return (env : MainEnv) (h1 : env.export_folders ≠ [])
    (h2 : remaining_items env = []) :
    main_run env =
      { events := [Event.mkdirImagesOut, Event.mkdirErrorsOut], aborted := none,
        state := none } :=
  main_run_nothing_left env h1 h2

theorem c10_witness :
    main_run envC10 =
      { events := [Event.mkdirImagesOut, Event.mkdirErrorsOut], aborted := none,
        state := none } :=
  c10_nothing_left_early_return envC10 (by decide) (by decide)

/-- Claim C4 counterexample: a run with the stamping tool absent and one
remaining item aborts, but only after the export walk was performed and the
DUPLICATES.csv ledger file was created — refuting "aborts before any work
begins, with nothing written beyond directory creation (no ledger file ...)". -/
theorem c4_counterexample :
    (main_run envC4).aborted = some AbortReason.exiftoolNotFound ∧
    Event.walkExports ∈ (main_run envC4).events ∧
    Event.writeFile "DUPLICATES.csv" [] ∈ (main_run envC4).events := by
  decide

/-- Claim C4 (amended): if the stamping tool is absent and at least one item
remains (and export folders exist), the run aborts with a message
(`SystemExit`) — but only when the stamper is constructed, which happens after
the catalog scan, the export walk and the creation of the Duplicates ledger
file: at the abort the output directories exist and DUPLICATES.csv has been
written, while no file has been copied, no stamp command issued, and none of
the other three ledgers written.  (When nothing remains, the run returns
normally without consulting the tool at all.) -/
theorem c4_abort_after_duplicates_ledger (env : MainEnv) (h1 : env.export_folders ≠ [])
    (h2 : remaining_items env ≠ []) (h3 : env.exiftool_present = false) :
    main_run env =
      { events := [Event.mkdirImagesOut, Event.mkdirErrorsOut, Event.walkExports,
          Event.writeFile "DUPLICATES.csv" (dupRows (duplicates_of env))],
        aborted := some AbortReason.exiftoolNotFound, state := none } :=
  main_run_no_exiftool env h1 h2 h3

theorem c4_witness :
    main_run envC4 =
      { events := [Event.mkdirImagesOut, Event.mkdirErrorsOut, Event.walkExports,
          Event.writeFile "DUPLICATES.csv" (dupRows (duplicates_of envC4))],
        aborted := some AbortReason.exiftoolNotFound, state := none } :=
  c4_abort_after_duplicates_ledger envC4 (by decide) (by decide) rfl

/-- Claim C8 counterexample: DUPLICATES.csv is written with no header row.  In
a run whose only remaining item is located twice, the file's entire content is
the single variable-width data row of name/path pairs; in a run with no
duplicated name the file's content is empty.  A ledger "written with a fixed
header row" would always start with that header row. -/
theorem c8_counterexample :
    Event.writeFile "DUPLICATES.csv"
        [["e.jpg", "iCloud Photos Part 1/e.jpg", "e.jpg", "iCloud Photos Part 1/sub/e.jpg"]] ∈
      (main_run envC8).events ∧
    Event.writeFile "DUPLICATES.csv" [] ∈ (main_run envC8b).events := by
  decide

/-- Claim C8 (amended): the Missing, BadDate and StampFailed ledgers are
written with the fixed header rows `[imgName, csvFile]`,
`[imgName, rawDate, csvFile]` and `[imgName, exifDate, outputFile, csvFile]`,
and their data rows are respectively (name, origin-catalog-path),
(name, raw date, origin-catalog-path) and (name, computed timestamp, output
path, origin-catalog-path); the Duplicates ledger is written with NO header
row, each of its rows being one duplicated name's name/path pairs repeated. -/
theorem c8_ledger_shapes (env : MainEnv) (h1 : env.export_folders ≠ [])
    (h2 : remaining_items env ≠ []) (h3 : env.exiftool_present = true) :
    (Event.writeFile "DUPLICATES.csv" (dupRows (duplicates_of env)) ∈ (main_run env).events ∧
      ∀ r ∈ dupRows (duplicates_of env), ∃ p ∈ duplicates_of env, r = dupRow p.1 p.2) ∧
    (Event.writeFile "CANNOT_BE_FOUND.csv"
        (["imgName", "csvFile"] :: (final_state env).missing) ∈ (main_run env).events ∧
      ∀ r ∈ (final_state env).missing, ∃ it ∈ remaining_items env,
        r = [it.name, it.csvFile]) ∧
    (Event.writeFile "BAD_DATE.csv"
        (["imgName", "rawDate", "csvFile"] :: (final_state env).bad_date) ∈
          (main_run env).events ∧
      ∀ r ∈ (final_state env).bad_date, ∃ it ∈ remaining_items env,
        r = [it.name, it.rawDate, it.csvFile]) ∧
    (Event.writeFile "EXIFTOOL_FAILED.csv"
        (["imgName", "exifDate", "outputFile", "csvFile"] :: (final_state env).exiftool_failed) ∈
          (main_run env).events ∧
      ∀ r ∈ (final_state env).exiftool_failed, ∃ it ∈ remaining_items env,
        r = [it.name, (parse_icloud_date it.rawDate).getD "", images_out_path it.name,
          it.csvFile]) := by
  have hm := main_run_full env h1 h2 h3
  have hev : ∀ e ∈ ([Event.mkdirImagesOut, Event.mkdirErrorsOut, Event.walkExports,
      Event.writeFile "DUPLICATES.csv" (dupRows (duplicates_of env))] : List Event),
      e ∈ (main_run env).events := by
    intro e he
    rw [hm]
    exact List.mem_append.mpr (Or.inl (List.mem_append.mpr (Or.inl he)))
  have hev2 : ∀ e ∈ ([Event.writeFile "CANNOT_BE_FOUND.csv"
        (["imgName", "csvFile"] :: (final_state env).missing),
      Event.writeFile "BAD_DATE.csv"
        (["imgName", "rawDate", "csvFile"] :: (final_state env).bad_date),
      Event.writeFile "EXIFTOOL_FAILED.csv"
        (["imgName", "exifDate", "outputFile", "csvFile"] ::
          (final_state env).exiftool_failed)] : List Event), e ∈ (main_run env).events := by
    intro e he
    rw [hm]
    exact List.mem_append.mpr (Or.inr he)
  refine ⟨⟨hev _ (by simp), ?_⟩, ⟨hev2 _ (by simp), ?_⟩, ⟨hev2 _ (by simp), ?_⟩,
    ⟨hev2 _ (by simp), ?_⟩⟩
  · intro r hr
    obtain ⟨p, hp, hrp⟩ := List.mem_map.mp hr
    exact ⟨p, hp, hrp.symm⟩
  · intro r hr
    have : (final_state env).missing =
        ((remaining_items env).filter
          (fun it => classify (found_of env) env.copy_ok env.stamp_ok it ==
            Outcome.missing)).map (fun it => [it.name, it.csvFile]) := by
      show (runItems (found_of env) env.copy_ok env.stamp_ok (remaining_items env)
        initState).1.missing = _
      rw [runItems_missing]
      rfl
    rw [this] at hr
    obtain ⟨it, hit, hrit⟩ := List.mem_map.mp hr
    exact ⟨it, (List.mem_filter.mp hit).1, hrit.symm⟩
  · intro r hr
    have : (final_state env).bad_date =
        ((remaining_items env).filter
          (fun it => classify (found_of env) env.copy_ok env.stamp_ok it ==
            Outcome.badDate)).map (fun it => [it.name, it.rawDate, it.csvFile]) := by
      show (runItems (found_of env) env.copy_ok env.stamp_ok (remaining_items env)
        initState).1.bad_date = _
      rw [runItems_bad_date]
      rfl
    rw [this] at hr
    obtain ⟨it, hit, hrit⟩ := List.mem_map.mp hr
    exact ⟨it, (List.mem_filter.mp hit).1, hrit.symm⟩
  · intro r hr
    have : (final_state env).exiftool_failed =
        ((remaining_items env).filter
          (fun it => classify (found_of env) env.copy_ok env.stamp_ok it ==
            Outcome.stampFailed)).map
          (fun it => [it.name, (parse_icloud_date it.rawDate).getD "",
            images_out_path it.name, it.csvFile]) := by
      show (runItems (found_of env) env.copy_ok env.stamp_ok (remaining_items env)
        initState).1.exiftool_failed = _
      rw [runItems_failed]
      rfl
    rw [this] at hr
    obtain ⟨it, hit, hrit⟩ := List.mem_map.mp hr
    exact ⟨it, (List.mem_filter.mp hit).1, hrit.symm⟩

theorem c8_witness :
    (Event.writeFile "DUPLICATES.csv" (dupRows (duplicates_of envC8)) ∈
        (main_run envC8).events ∧
      ∀ r ∈ dupRows (duplicates_of envC8), ∃ p ∈ duplicates_of envC8, r = dupRow p.1 p.2) ∧
    (Event.writeFile "CANNOT_BE_FOUND.csv"
        (["imgName", "csvFile"] :: (final_state envC8).missing) ∈ (main_run envC8).events ∧
      ∀ r ∈ (final_state envC8).missing, ∃ it ∈ remaining_items envC8,
        r = [it.name, it.csvFile]) ∧
    (Event.writeFile "BAD_DATE.csv"
        (["imgName", "rawDate", "csvFile"] :: (final_state envC8).bad_date) ∈
          (main_run envC8).events ∧
      ∀ r ∈ (final_state envC8).bad_date, ∃ it ∈ remaining_items envC8,
        r = [it.name, it.rawDate, it.csvFile]) ∧
    (Event.writeFile "EXIFTOOL_FAILED.csv"
        (["imgName", "exifDate", "outputFile", "csvFile"] ::
          (final_state envC8).exiftool_failed) ∈ (main_run envC8).events ∧
      ∀ r ∈ (final_state envC8).exiftool_failed, ∃ it ∈ remaining_items envC8,
        r = [it.name, (parse_icloud_date it.rawDate).getD "", images_out_path it.name,
          it.csvFile]) :=
  c8_ledger_shapes envC8 (by decide) (by decide) rfl

/-! ## Claim support: duplicate rows and output paths -/

theorem str_append_left_cancel (s a b : String) (h : s ++ a = s ++ b) : a = b := by
  apply String.ext
  have hd := congrArg String.data h
  rw [String.data_append, String.data_append] at hd
  exact List.append_cancel_left hd

theorem images_out_path_inj (a b : String) (h : images_out_path a = images_out_path b) :
    a = b := by
  unfold images_out_path at h
  exact str_append_left_cancel _ _ _ h

theorem dupRow_aux (name : String) (ps : List String) (acc : List String) :
    ps.foldl (fun r p => r ++ [name, p]) acc =
      acc ++ (ps.map (fun q => [name, q])).flatten := by
  induction ps generalizing acc with
  | nil => simp
  | cons q qs ih => simp [ih]

theorem dupRow_eq (name : String) (ps : List String) :
    dupRow name ps = (ps.map (fun q => [name, q])).flatten := by
  show ps.foldl (fun r p => r ++ [name, p]) [] = _
  simpa using dupRow_aux name ps []

theorem dupRow_head (name q : String) (qs : List String) :
    (dupRow name (q :: qs)).head? = some name := by
  rw [dupRow_eq]
  simp

theorem mem_dupRow (name q : String) (ps : List String) (h : q ∈ ps) : q ∈ dupRow name ps := by
  rw [dupRow_eq]
  exact List.mem_flatten.mpr ⟨[name, q], List.mem_map.mpr ⟨q, h, rfl⟩, by simp⟩

/-- Claim C3: every name located at two or more paths appears in the
Duplicates ledger with a row listing all of its candidate paths; no copy event
of the run targets its output path and no stamp command names it as target
(the target is the final argument); and the Duplicates ledger file is written
before any copy event. -/
theorem c3_duplicates_never_copied (env : MainEnv) (name : String) (ps : List String)
    (h1 : env.export_folders ≠ []) (hmem : (name, ps) ∈ found_of env)
    (hlen : 2 ≤ ps.length) :
    Event.writeFile "DUPLICATES.csv" (dupRows (duplicates_of env)) ∈ (main_run env).events ∧
    (∃ r ∈ dupRows (duplicates_of env), r.head? = some name ∧ ∀ q ∈ ps, q ∈ r) ∧
    (∀ src dst, Event.copy src dst ∈ (main_run env).events → dst ≠ images_out_path name) ∧
    (∀ args, Event.stampCmd args ∈ (main_run env).events →
      args.getLastD "" ≠ images_out_path name) ∧
    (∃ pre post, (main_run env).events =
        pre ++ Event.writeFile "DUPLICATES.csv" (dupRows (duplicates_of env)) :: post ∧
      ∀ e ∈ pre, ∀ a b, e ≠ Event.copy a b) := by
  have hname_rem : name ∈ (remaining_items env).map Item.name :=
    build_found_mem_remaining _ _ _ hmem
  have h2 : remaining_items env ≠ [] := by
    intro he
    rw [he] at hname_rem
    simp at hname_rem
  have hnodup : ((found_of env).map Prod.fst).Nodup := build_found_keys_nodup _ _
  have hlook : lookupPaths (found_of env) name = ps := by
    show ((found_of env).lookup name).getD [] = ps
    rw [lookup_eq_of_mem _ _ _ hnodup hmem]
    rfl
  have hdupmem : (name, ps) ∈ duplicates_of env := by
    show (name, ps) ∈ (found_of env).filter (fun p => p.2.length > 1)
    refine List.mem_filter.mpr ⟨hmem, ?_⟩
    simpa using Nat.lt_of_lt_of_le Nat.one_lt_two hlen
  have hrow : ∃ r ∈ dupRows (duplicates_of env), r.head? = some name ∧ ∀ q ∈ ps, q ∈ r := by
    refine ⟨dupRow name ps, List.mem_map.mpr ⟨(name, ps), hdupmem, rfl⟩, ?_, ?_⟩
    · cases ps with
      | nil => simp at hlen
      | cons q qs => exact dupRow_head name q qs
    · intro q hq
      exact mem_dupRow name q ps hq
  have hcopyrun : ∀ src dst,
      Event.copy src dst ∈
        (runItems (found_of env) env.copy_ok env.stamp_ok (remaining_items env) initState).2 →
      dst ≠ images_out_path name := by
    intro src dst hm heq
    rw [runItems_events] at hm
    obtain ⟨evs, hevs, hmem2⟩ := List.mem_flatten.mp hm
    obtain ⟨it, hit, rfl⟩ := List.mem_map.mp hevs
    obtain ⟨hdst, hlookit⟩ := copy_mem_eventsOf _ _ _ _ _ hmem2
    have hni : it.name = name := images_out_path_inj _ _ (by rw [← hdst, heq])
    rw [hni, hlook] at hlookit
    rw [hlookit] at hlen
    simp at hlen
  have hstamprun : ∀ args,
      Event.stampCmd args ∈
        (runItems (found_of env) env.copy_ok env.stamp_ok (remaining_items env) initState).2 →
      args.getLastD "" ≠ images_out_path name := by
    intro args hm heq
    rw [runItems_events] at hm
    obtain ⟨evs, hevs, hmem2⟩ := List.mem_flatten.mp hm
    obtain ⟨it, hit, rfl⟩ := List.mem_map.mp hevs
    obtain ⟨hlast, src', hlookit⟩ := stamp_mem_eventsOf _ _ _ _ hmem2
    have hni : it.name = name := images_out_path_inj _ _ (by rw [← hlast, heq])
    rw [hni, hlook] at hlookit
    rw [hlookit] at hlen
    simp at hlen
  by_cases hexif : env.exiftool_present = true
  · have hm := main_run_full env h1 h2 hexif
    refine ⟨?_, hrow, ?_, ?_, ?_⟩
    · rw [hm]
      simp
    · intro src dst hcm
      rw [hm] at hcm
      rcases List.mem_append.mp hcm with hcm | hcm
      · rcases List.mem_append.mp hcm with hcm | hcm
        · simp at hcm
        · exact hcopyrun src dst hcm
      · simp at hcm
    · intro args hcm
      rw [hm] at hcm
      rcases List.mem_append.mp hcm with hcm | hcm
      · rcases List.mem_append.mp hcm with hcm | hcm
        · simp at hcm
        · exact hstamprun args hcm
      · simp at hcm
    · refine ⟨[Event.mkdirImagesOut, Event.mkdirErrorsOut, Event.walkExports],
        (runItems (found_of env) env.copy_ok env.stamp_ok (remaining_items env) initState).2 ++
          [Event.writeFile "CANNOT_BE_FOUND.csv"
              (["imgName", "csvFile"] :: (final_state env).missing),
           Event.writeFile "BAD_DATE.csv"
              (["imgName", "rawDate", "csvFile"] :: (final_state env).bad_date),
           Event.writeFile "EXIFTOOL_FAILED.csv"
              (["imgName", "exifDate", "outputFile", "csvFile"] ::
                (final_state env).exiftool_failed)], ?_, ?_⟩
      · rw [hm]
        simp
      · intro e he a b heq
        rcases List.mem_cons.mp he with rfl | he
        · exact Event.noConfusion heq
        rcases List.mem_cons.mp he with rfl | he
        · exact Event.noConfusion heq
        rcases List.mem_cons.mp he with rfl | he
        · exact Event.noConfusion heq
        · exact absurd he (List.not_mem_nil e)
  · have hexif' : env.exiftool_present = false := Bool.eq_false_iff.mpr hexif
    have hm := main_run_no_exiftool env h1 h2 hexif'
    refine ⟨?_, hrow, ?_, ?_, ?_⟩
    · rw [hm]
      simp
    · intro src dst hcm
      rw [hm] at hcm
      simp at hcm
    · intro args hcm
      rw [hm] at hcm
      simp at hcm
    · refine ⟨[Event.mkdirImagesOut, Event.mkdirErrorsOut, Event.walkExports], [], ?_, ?_⟩
      · rw [hm]
        rfl
      · intro e he a b heq
        rcases List.mem_cons.mp he with rfl | he
        · exact Event.noConfusion heq
        rcases List.mem_cons.mp he with rfl | he
        · exact Event.noConfusion heq
        rcases List.mem_cons.mp he with rfl | he
        · exact Event.noConfusion heq
        · exact absurd he (List.not_mem_nil e)

theorem c3_witness :
    Event.writeFile "DUPLICATES.csv" (dupRows (duplicates_of envC3)) ∈
        (main_run envC3).events ∧
      (∃ r ∈ dupRows (duplicates_of envC3), r.head? = some "dup.jpg" ∧
        ∀ q ∈ ["iCloud Photos Part 1/dup.jpg", "iCloud Photos Part 1/sub/dup.jpg"], q ∈ r) ∧
      (∀ src dst, Event.copy src dst ∈ (main_run envC3).events →
        dst ≠ images_out_path "dup.jpg") ∧
      (∀ args, Event.stampCmd args ∈ (main_run envC3).events →
        args.getLastD "" ≠ images_out_path "dup.jpg") ∧
      (∃ pre post, (main_run envC3).events =
          pre ++ Event.writeFile "DUPLICATES.csv" (dupRows (duplicates_of envC3)) :: post ∧
        ∀ e ∈ pre, ∀ a b, e ≠ Event.copy a b) :=
  c3_duplicates_never_copied envC3 "dup.jpg"
    ["iCloud Photos Part 1/dup.jpg", "iCloud Photos Part 1/sub/dup.jpg"]
    (by decide) (by decide) (by decide)

/-! ## Claim support: ledger key membership -/

theorem rows_have_name_map_filter (items : List Item) (pf : Item → Bool)
    (tl : Item → List String) (name : String) :
    rows_have_name ((items.filter pf).map (fun it => it.name :: tl it)) name = true ↔
      ∃ it ∈ items, pf it = true ∧ it.name = name := by
  constructor
  · intro h
    obtain ⟨r, hr, hbeq⟩ := List.any_eq_true.mp h
    obtain ⟨it, hitf, rfl⟩ := List.mem_map.mp hr
    obtain ⟨hit, hpf⟩ := List.mem_filter.mp hitf
    refine ⟨it, hit, hpf, ?_⟩
    have hh := beq_iff_eq.mp hbeq
    rw [List.head?_cons] at hh
    exact Option.some.inj hh
  · rintro ⟨it, hit, hpf, hname⟩
    refine List.any_eq_true.mpr ⟨it.name :: tl it,
      List.mem_map.mpr ⟨it, List.mem_filter.mpr ⟨hit, hpf⟩, rfl⟩, ?_⟩
    rw [List.head?_cons, hname]
    exact beq_iff_eq.mpr rfl

/-- Claim C2: after a full run, every remaining item's name lies in exactly
one of the four ledgers' key sets and the processed set (one classification
per item), and over all names these five key sets are pairwise disjoint (no
name has more than one of the five memberships). -/
theorem c2_partition (env : MainEnv) (h1 : env.export_folders ≠ [])
    (h2 : remaining_items env ≠ []) (h3 : env.exiftool_present = true) :
    (main_run env).state = some (final_state env) ∧
    (∀ it ∈ remaining_items env, (outcome_flags env it.name).count true = 1) ∧
    (∀ name, (outcome_flags env name).count true ≤ 1) := by
  have hstate : (main_run env).state = some (final_state env) := by
    rw [main_run_full env h1 h2 h3]
  have hmiss : ∀ nm, rows_have_name (final_state env).missing nm = true ↔
      ∃ it ∈ remaining_items env,
        classify (found_of env) env.copy_ok env.stamp_ok it = Outcome.missing ∧
          it.name = nm := by
    intro nm
    have hrw : (final_state env).missing =
        ((remaining_items env).filter
          (fun it => classify (found_of env) env.copy_ok env.stamp_ok it ==
            Outcome.missing)).map (fun it => it.name :: [it.csvFile]) := by
      show (runItems (found_of env) env.copy_ok env.stamp_ok (remaining_items env)
        initState).1.missing = _
      rw [runItems_missing]
      rfl
    rw [hrw, rows_have_name_map_filter]
    constructor
    · rintro ⟨it, hit, hpf, hname⟩
      exact ⟨it, hit, beq_iff_eq.mp hpf, hname⟩
    · rintro ⟨it, hit, hcl, hname⟩
      exact ⟨it, hit, by simp [hcl], hname⟩
  have hbad : ∀ nm, rows_have_name (final_state env).bad_date nm = true ↔
      ∃ it ∈ remaining_items env,
        classify (found_of env) env.copy_ok env.stamp_ok it = Outcome.badDate ∧
          it.name = nm := by
    intro nm
    have hrw : (final_state env).bad_date =
        ((remaining_items env).filter
          (fun it => classify (found_of env) env.copy_ok env.stamp_ok it ==
            Outcome.badDate)).map (fun it => it.name :: [it.rawDate, it.csvFile]) := by
      show (runItems (found_of env) env.copy_ok env.stamp_ok (remaining_items env)
        initState).1.bad_date = _
      rw [runItems_bad_date]
      rfl
    rw [hrw, rows_have_name_map_filter]
    constructor
    · rintro ⟨it, hit, hpf, hname⟩
      exact ⟨it, hit, beq_iff_eq.mp hpf, hname⟩
    · rintro ⟨it, hit, hcl, hname⟩
      exact ⟨it, hit, by simp [hcl], hname⟩
  have hfail : ∀ nm, rows_have_name (final_state env).exiftool_failed nm = true ↔
      ∃ it ∈ remaining_items env,
        classify (found_of env) env.copy_ok env.stamp_ok it = Outcome.stampFailed ∧
          it.name = nm := by
    intro nm
    have hrw : (final_state env).exiftool_failed =
        ((remaining_items env).filter
          (fun it => classify (found_of env) env.copy_ok env.stamp_ok it ==
            Outcome.stampFailed)).map
          (fun it => it.name :: [(parse_icloud_date it.rawDate).getD "",
            images_out_path it.name, it.csvFile]) := by
      show (runItems (found_of env) env.copy_ok env.stamp_ok (remaining_items env)
        initState).1.exiftool_failed = _
      rw [runItems_failed]
      rfl
    rw [hrw, rows_have_name_map_filter]
    constructor
    · rintro ⟨it, hit, hpf, hname⟩
      exact ⟨it, hit, beq_iff_eq.mp hpf, hname⟩
    · rintro ⟨it, hit, hcl, hname⟩
      exact ⟨it, hit, by simp [hcl], hname⟩
  have hproc : ∀ nm, ((processed_names env).any (fun n => n == nm) = true) ↔
      ∃ it ∈ remaining_items env,
        classify (found_of env) env.copy_ok env.stamp_ok it = Outcome.processed ∧
          it.name = nm := by
    intro nm
    constructor
    · intro h
      obtain ⟨n, hn, hbeq⟩ := List.any_eq_true.mp h
      obtain ⟨it, hitf, rfl⟩ := List.mem_map.mp hn
      obtain ⟨hit, hpf⟩ := List.mem_filter.mp hitf
      exact ⟨it, hit, beq_iff_eq.mp hpf, beq_iff_eq.mp hbeq⟩
    · rintro ⟨it, hit, hcl, hname⟩
      exact List.any_eq_true.mpr ⟨it.name,
        List.mem_map.mpr ⟨it, List.mem_filter.mpr ⟨hit, by simp [hcl]⟩, rfl⟩,
        beq_iff_eq.mpr hname⟩
  have hdup : ∀ nm, ((duplicates_of env).any (fun p => p.1 == nm) = true) ↔
      ∃ it ∈ remaining_items env,
        classify (found_of env) env.copy_ok env.stamp_ok it = Outcome.duplicate ∧
          it.name = nm := by
    intro nm
    constructor
    · intro h
      obtain ⟨p, hp, hbeq⟩ := List.any_eq_true.mp h
      have hpname : p.1 = nm := beq_iff_eq.mp hbeq
      have hp' := List.mem_filter.mp hp
      have hplen : p.2.length > 1 := of_decide_eq_true hp'.2
      have hnm_rem : nm ∈ (remaining_items env).map Item.name := by
        rw [← hpname]
        exact build_found_mem_remaining _ _ _ hp'.1
      obtain ⟨it, hit, hitname⟩ := List.mem_map.mp hnm_rem
      refine ⟨it, hit, ?_, hitname⟩
      rw [classify_duplicate_iff]
      have hnodupF : ((found_of env).map Prod.fst).Nodup := build_found_keys_nodup _ _
      have hlookup : lookupPaths (found_of env) nm = p.2 := by
        show ((found_of env).lookup nm).getD [] = p.2
        rw [← hpname, lookup_eq_of_mem _ _ _ hnodupF hp'.1]
        rfl
      rw [hitname, hlookup]
      exact hplen
    · rintro ⟨it, hit, hcl, hname⟩
      have hlen := (classify_duplicate_iff _ _ _ _).mp hcl
      cases hq : (found_of env).lookup it.name with
      | none =>
        unfold lookupPaths at hlen
        rw [hq] at hlen
        simp at hlen
      | some qs =>
        have hmem' : (it.name, qs) ∈ found_of env := lookup_some_mem _ _ _ hq
        have hqs : qs.length > 1 := by
          unfold lookupPaths at hlen
          rw [hq] at hlen
          simpa using hlen
        refine List.any_eq_true.mpr ⟨(it.name, qs), ?_, by simp [hname]⟩
        show (it.name, qs) ∈ (found_of env).filter (fun p => p.2.length > 1)
        exact List.mem_filter.mpr ⟨hmem', by simpa using hqs⟩
  have huniq : ∀ it ∈ remaining_items env, ∀ it' ∈ remaining_items env,
      it'.name = it.name → it' = it := by
    intro it hit it' hit' heq
    exact List.inj_on_of_nodup_map (remaining_names_nodup env) hit' hit heq
  have hcount : ∀ it ∈ remaining_items env, (outcome_flags env it.name).count true = 1 := by
    intro it hit
    have hone : ∀ o, (∃ it' ∈ remaining_items env,
        classify (found_of env) env.copy_ok env.stamp_ok it' = o ∧ it'.name = it.name) ↔
        classify (found_of env) env.copy_ok env.stamp_ok it = o := by
      intro o
      constructor
      · rintro ⟨it', hit', hcl, hname⟩
        rw [← huniq it hit it' hit' hname]
        exact hcl
      · intro h
        exact ⟨it, hit, h, rfl⟩
    have flag_eq : ∀ (b : Bool) (o : Outcome),
        (b = true ↔ ∃ it' ∈ remaining_items env,
          classify (found_of env) env.copy_ok env.stamp_ok it' = o ∧ it'.name = it.name) →
        b = decide (classify (found_of env) env.copy_ok env.stamp_ok it = o) := by
      intro b o hiff
      cases hd : decide (classify (found_of env) env.copy_ok env.stamp_ok it = o) with
      | true => exact hiff.mpr ((hone o).mpr (of_decide_eq_true hd))
      | false =>
        refine Bool.eq_false_iff.mpr (fun hb => ?_)
        exact absurd ((hone o).mp (hiff.mp hb)) (of_decide_eq_false hd)
    have e1 := flag_eq _ _ (hmiss it.name)
    have e2 := flag_eq _ _ (hdup it.name)
    have e3 := flag_eq _ _ (hbad it.name)
    have e4 := flag_eq _ _ (hfail it.name)
    have e5 := flag_eq _ _ (hproc it.name)
    unfold outcome_flags
    rw [e1, e2, e3, e4, e5]
    cases hcl : classify (found_of env) env.copy_ok env.stamp_ok it <;> simp [hcl]
  refine ⟨hstate, hcount, ?_⟩
  intro name
  by_cases hex : ∃ it ∈ remaining_items env, it.name = name
  · obtain ⟨it, hit, hname⟩ := hex
    rw [← hname]
    exact Nat.le_of_eq (hcount it hit)
  · have hnone : ∀ (b : Bool) (o : Outcome),
        (b = true ↔ ∃ it' ∈ remaining_items env,
          classify (found_of env) env.copy_ok env.stamp_ok it' = o ∧ it'.name = name) →
        b = false := by
      intro b o hiff
      refine Bool.eq_false_iff.mpr (fun hb => ?_)
      obtain ⟨it', hit', _, hname'⟩ := hiff.mp hb
      exact hex ⟨it', hit', hname'⟩
    have e1 := hnone _ _ (hmiss name)
    have e2 := hnone _ _ (hdup name)
    have e3 := hnone _ _ (hbad name)
    have e4 := hnone _ _ (hfail name)
    have e5 := hnone _ _ (hproc name)
    unfold outcome_flags
    rw [e1, e2, e3, e4, e5]
    decide

theorem c2_witness :
    (main_run envC2).state = some (final_state envC2) ∧
    (∀ it ∈ remaining_items envC2, (outcome_flags envC2 it.name).count true = 1) ∧
    (∀ name, (outcome_flags envC2 name).count true ≤ 1) :=
  c2_partition envC2 (by decide) (by decide) rfl
